import Mathlib

/-!
# claude-proxy: credential rotation, connection pool and the forwarding loop

A shallow embedding of `main.go`.  Package-level variables become the record
`Globals`, the buffered channel `conns` becomes a FIFO list with a capacity,
the upstream (`http.Client.Do`) and `http.NewRequest` are parameters of the
model (`Env`), and `http.ResponseWriter` is a record of the status line and the
bytes written so far.  The handler is modelled for one request run at a time
(no interleaving of goroutines), so the two mutexes do not appear.

Go strings, byte streams and `error` values (through their `Error()` text) are
Lean strings.
-/

namespace ClaudeProxy

/-! ## Library types -/

/-- A `time.Duration`, counted in nanoseconds. -/
abbrev Duration := Int

/-- The constant `time.Second`. -/
def second : Duration := 1000000000

/-- The constant `http.StatusTooManyRequests`. -/
def StatusTooManyRequests : Nat := 429

/-- The constant `http.StatusInternalServerError`. -/
def StatusInternalServerError : Nat := 500

/-- The constant `http.StatusOK`. -/
def StatusOK : Nat := 200

/-- An `http.Header`: a map from canonical field names to value lists, kept as
an association list with at most one entry per name once `Set` has been used. -/
abbrev Header := List (String × List String)

/-- One character of `textproto.CanonicalMIMEHeaderKey`: the first letter and
every letter after a hyphen is upper case, every other letter lower case. -/
def canonicalChars : Bool → List Char → List Char
  | _, [] => []
  | upper, c :: cs =>
    (if upper then c.toUpper else c.toLower) :: canonicalChars (c == '-') cs

/-- The function `textproto.CanonicalMIMEHeaderKey` on a field name made of
letters, digits and hyphens (the only kind `main.go` passes to it). -/
def canonicalMIMEHeaderKey (s : String) : String :=
  String.mk (canonicalChars true s.data)

/-- The method `Header.Set`: the entry under the canonical name is replaced by
the single value. -/
def Header.Set (h : Header) (key value : String) : Header :=
  (canonicalMIMEHeaderKey key, [value]) ::
    h.filter (fun e => e.1 != canonicalMIMEHeaderKey key)

/-- The lookup `h[key]` of the map, `nil` (the empty list) when absent. -/
def Header.values (h : Header) (key : String) : List String :=
  (h.lookup key).getD []

/-- A handle on the inbound body stream `r.Body`.  Only its identity is kept:
the same handle is given to every outbound request of a run. -/
structure BodyHandle where
  id : Nat
deriving DecidableEq, Repr

/-- The fields of the inbound `*http.Request` that `proxyHandler` reads. -/
structure InRequest where
  method : String
  path : String
  header : Header
  body : BodyHandle
deriving DecidableEq, Repr

/-- The outbound `*http.Request` built by `http.NewRequest` and then given the
inbound header map. -/
structure OutRequest where
  method : String
  url : String
  header : Header
  body : BodyHandle
deriving DecidableEq, Repr

/-- An upstream `*http.Response`: the status code and the body stream, given by
the bytes it yields and the error, if any, that ends the stream instead of a
clean end of file. -/
structure Response where
  statusCode : Nat
  body : String
  readErr : Option String
deriving DecidableEq, Repr

/-- The `http.ResponseWriter` of the caller: the status line once it has been
written, and the body bytes written so far. -/
structure ResponseWriter where
  status : Option Nat
  body : String
deriving DecidableEq, Repr

/-- The writer the server hands to the handler: nothing written yet. -/
def ResponseWriter.fresh : ResponseWriter := { status := none, body := "" }

/-- The method `WriteHeader`: sets the status line unless one was already sent
(a second call is ignored by `net/http`). -/
def ResponseWriter.WriteHeader (w : ResponseWriter) (code : Nat) : ResponseWriter :=
  match w.status with
  | some _ => w
  | none => { w with status := some code }

/-- The method `Write`: sends the implicit `200` status line first when none
was sent, then the bytes. -/
def ResponseWriter.Write (w : ResponseWriter) (data : String) : ResponseWriter :=
  { (w.WriteHeader StatusOK) with body := (w.WriteHeader StatusOK).body ++ data }

/-- The function `http.Error`: `WriteHeader(code)` followed by
`fmt.Fprintln(w, msg)`. -/
def httpError (w : ResponseWriter) (msg : String) (code : Nat) : ResponseWriter :=
  (w.WriteHeader code).Write (msg ++ "\n")

/-- The function `io.Copy(w, resp.Body)`: the bytes the stream yields are
written to `w` (no `Write` call when it yields none), and the read error of the
stream, if any, is returned.  The writer records what the handler writes; a
write that fails because the caller has gone away is outside the model. -/
def ioCopy (w : ResponseWriter) (resp : Response) : ResponseWriter × Option String :=
  ((if resp.body = "" then w else w.Write resp.body), resp.readErr)

/-- What the caller receives once the handler has returned: `net/http` sends
the `200` status line itself when the handler wrote none. -/
def served (w : ResponseWriter) : Nat × String :=
  (w.status.getD StatusOK, w.body)

/-! ## The connection pool -/

/-- An `*http.Client` built by `Get`.  The field `id` stands for the pointer:
two clients are the same object exactly when their `id` agrees. -/
structure Client where
  id : Nat
  maxIdleConns : Int
  maxIdleConnsPerHost : Int
  idleConnTimeout : Duration
  timeout : Duration
deriving DecidableEq, Repr

/-- A buffered channel `chan *http.Client`: its capacity and the queued
elements, oldest first. -/
structure Chan where
  cap : Nat
  buf : List Client
deriving DecidableEq, Repr

/-- The struct `ConnectionPool`.  The field `created` is a ghost counter of the
clients constructed so far; it supplies the identity of the next one. -/
structure ConnectionPool where
  maxIdle : Int
  maxActive : Int
  idleTimeout : Duration
  conns : Chan
  created : Nat
deriving DecidableEq, Repr

/-- The constructor `NewConnectionPool`.  The call `make(chan, maxActive)`
panics for a negative size: `none`. -/
def NewConnectionPool (maxIdle maxActive : Int) (idleTimeout : Duration) :
    Option ConnectionPool :=
  if maxActive < 0 then none
  else some
    { maxIdle := maxIdle
      maxActive := maxActive
      idleTimeout := idleTimeout
      conns := { cap := maxActive.toNat, buf := [] }
      created := 0 }

/-- The method `Get`: the `select` receives the oldest queued client when there
is one; in the `default` branch the length of the queue is compared with
`maxActive` and otherwise a new client is constructed. -/
def ConnectionPool.Get (p : ConnectionPool) : ConnectionPool × Except String Client :=
  match p.conns.buf with
  | conn :: rest => ({ p with conns := { p.conns with buf := rest } }, .ok conn)
  | [] =>
    if (p.conns.buf.length : Int) ≥ p.maxActive then
      (p, .error "connection pool exhausted")
    else
      ({ p with created := p.created + 1 },
        .ok
          { id := p.created
            maxIdleConns := p.maxIdle
            maxIdleConnsPerHost := p.maxIdle
            idleConnTimeout := p.idleTimeout
            timeout := 200 * second })

/-- The method `Put`: nothing happens when the queue already holds `maxActive`
clients; otherwise the client is sent on the channel.  A send on a full channel
never completes (and the mutex stays held): `none`. -/
def ConnectionPool.Put (p : ConnectionPool) (conn : Client) : Option ConnectionPool :=
  if (p.conns.buf.length : Int) ≥ p.maxActive then some p
  else if p.conns.buf.length < p.conns.cap then
    some { p with conns := { p.conns with buf := p.conns.buf ++ [conn] } }
  else none

/-- What one call of `ConnectionPool.Do` leaves behind: the pool, the client
whose `Do` was invoked (none when `Get` failed) and the returned pair, as a
response or an error. -/
structure DoOutcome where
  pool : ConnectionPool
  client : Option Client
  result : Except String Response
deriving Repr

/-- The method `ConnectionPool.Do`, with the call `conn.Do(req)` given by
`clientDo`.  The client goes back to the pool only after a successful call. -/
def ConnectionPool.Do (clientDo : Client → OutRequest → Except String Response)
    (p : ConnectionPool) (req : OutRequest) : Option DoOutcome :=
  match p.Get with
  | (p1, .error err) => some { pool := p1, client := none, result := .error err }
  | (p1, .ok conn) =>
    match clientDo conn req with
    | .error err => some { pool := p1, client := some conn, result := .error err }
    | .ok resp =>
      match p1.Put conn with
      | none => none
      | some p2 => some { pool := p2, client := some conn, result := .ok resp }

/-! ## Credential rotation and the handler -/

/-- The package-level variables `apiKeys`, `currentAPIKey` and `connPool`.
The cursor is a Go `int` that is only ever `0` or a remainder modulo
`len(apiKeys)`, hence a natural number below the length of a slice. -/
structure Globals where
  apiKeys : List String
  currentAPIKey : Nat
  connPool : ConnectionPool
deriving DecidableEq, Repr

/-- The function `rotateAPIKey`.  The remainder by `len(apiKeys) = 0` is a
run-time panic: `none`. -/
def rotateAPIKey (g : Globals) : Option Globals :=
  if g.apiKeys.length = 0 then none
  else some { g with currentAPIKey := (g.currentAPIKey + 1) % g.apiKeys.length }

/-- The function `rotateAPIKey` called `m` times in a row. -/
def rotateTimes : Nat → Globals → Option Globals
  | 0, g => some g
  | m + 1, g => (rotateAPIKey g).bind (rotateTimes m)

/-- The world outside the handler: `newRequestErr method url` is the error of
`http.NewRequest` (none when the request is built), and `clientDo i conn req`
is what `conn.Do(req)` returns in iteration `i` of the loop. -/
structure Env where
  newRequestErr : String → String → Option String
  clientDo : Nat → Client → OutRequest → Except String Response

/-- The ghost record of one call of `connPool.Do` made by the handler: the loop
counter, the cursor and credential read at the top of the iteration, the
request, the client that carried it and what the call returned. -/
structure Attempt where
  index : Nat
  cursor : Nat
  apiKey : String
  req : OutRequest
  client : Option Client
  result : Except String Response
deriving Repr

/-- The state of one handler run: the globals, the caller's writer, the inbound
request (whose header map the outbound requests share and modify), and the
ghost trace: the attempts made and the number of `rotateAPIKey` calls. -/
structure Run where
  g : Globals
  w : ResponseWriter
  r : InRequest
  attempts : List Attempt
  rotations : Nat
deriving Repr

/-- The outbound request of one iteration, once `http.NewRequest` has
succeeded: the inbound method, the upstream origin followed by the inbound
path, the inbound body handle, and the inbound header map after
`req.Header.Set("x-api-key", apiKey)`. -/
def outbound (r : InRequest) (apiKey : String) : OutRequest :=
  { method := r.method
    url := "https://api.anthropic.com" ++ r.path
    header := r.header.Set "x-api-key" apiKey
    body := r.body }

/-- The loop `for i := 0; i < len(apiKeys); i++` of `proxyHandler` and the two
statements after it.  The first argument is `len(apiKeys) - i`, the number of
iterations left.  The lookup `apiKeys[currentAPIKey]` panics when out of range
and a blocked `Put` never returns: `none`.  The assignment
`req.Header = r.Header` shares the map, so `Set` changes the inbound header as
well: the request `r` of the run is updated. -/
def proxyLoop (env : Env) : Nat → Nat → Run → Option Run
  | 0, _, st =>
    some { st with
      w := httpError st.w "Unable to make successful request" StatusInternalServerError }
  | n + 1, i, st =>
    match st.g.apiKeys[st.g.currentAPIKey]? with
    | none => none
    | some apiKey =>
      match env.newRequestErr st.r.method ("https://api.anthropic.com" ++ st.r.path) with
      | some err =>
        some { st with
          w := httpError st.w ("Failed to create request: " ++ err)
            StatusInternalServerError }
      | none =>
        let req := outbound st.r apiKey
        match st.g.connPool.Do (env.clientDo i) req with
        | none => none
        | some d =>
          let st1 : Run :=
            { st with
              g := { st.g with connPool := d.pool }
              r := { st.r with header := req.header }
              attempts := st.attempts ++
                [{ index := i, cursor := st.g.currentAPIKey, apiKey := apiKey,
                   req := req, client := d.client, result := d.result }] }
          match d.result with
          | .error err =>
            some { st1 with
              w := httpError st1.w ("Failed to make request with API key: " ++ err)
                StatusInternalServerError }
          | .ok resp =>
            if resp.statusCode = StatusTooManyRequests then
              match rotateAPIKey st1.g with
              | none => none
              | some g1 =>
                proxyLoop env n (i + 1)
                  { st1 with g := g1, rotations := st1.rotations + 1 }
            else
              match ioCopy st1.w resp with
              | (w1, some err) =>
                some { st1 with
                  w := httpError w1 ("Failed to write response: " ++ err)
                    StatusInternalServerError }
              | (w1, none) => some { st1 with w := w1 }

/-- The function `proxyHandler(w, r)` run on the globals `g`.  The deferred
`resp.Body.Close()` calls touch nothing the model keeps. -/
def proxyHandler (env : Env) (g : Globals) (w : ResponseWriter) (r : InRequest) :
    Option Run :=
  proxyLoop env g.apiKeys.length 0
    { g := g, w := w, r := r, attempts := [], rotations := 0 }

/-! ## Predicates used in the statements -/

/-- The shape `NewConnectionPool` gives a pool and every method keeps: the
channel was made with capacity `maxActive` and holds no more than that. -/
@[reducible] def ConnectionPool.WF (p : ConnectionPool) : Prop :=
  (p.conns.cap : Int) = p.maxActive ∧ p.conns.buf.length ≤ p.conns.cap

/-- The state in which the server runs handlers: the cursor indexes a
credential and the pool is the one built at start-up. -/
@[reducible] def Globals.Ready (g : Globals) : Prop :=
  g.currentAPIKey < g.apiKeys.length ∧ g.connPool.WF

/-- Whether the attempt obtained a response with status 429. -/
def Attempt.rateLimited (a : Attempt) : Bool :=
  match a.result with
  | .ok resp => resp.statusCode == StatusTooManyRequests
  | .error _ => false

/-- The last statements of an iteration whose response is not a 429:
`io.Copy(w, resp.Body)` and, when it fails, the `http.Error` that follows. -/
def copyResponse (w : ResponseWriter) (resp : Response) : ResponseWriter :=
  match ioCopy w resp with
  | (w1, some err) =>
    httpError w1 ("Failed to write response: " ++ err) StatusInternalServerError
  | (w1, none) => w1

/-- What the record of attempt number `t` of a run started on `g` with request
`r` must say. -/
structure AttemptSpec (env : Env) (g : Globals) (r : InRequest) (t : Nat)
    (a : Attempt) : Prop where
  index_eq : a.index = t
  cursor_eq : a.cursor = (g.currentAPIKey + t) % g.apiKeys.length
  key_eq : g.apiKeys[a.cursor]? = some a.apiKey
  req_eq : a.req = outbound r a.apiKey
  no_client : a.client = none →
    g.connPool.maxActive ≤ 0 ∧ a.result = .error "connection pool exhausted"
  with_client : ∀ c, a.client = some c → a.result = env.clientDo t c a.req

/-- The four ways a run ends, with the reply each one writes. -/
def ExitSpec (env : Env) (g : Globals) (w : ResponseWriter) (r : InRequest)
    (R : Run) : Prop :=
  (R.attempts.length = g.apiKeys.length ∧ R.rotations = R.attempts.length ∧
      (∀ a ∈ R.attempts, a.rateLimited = true) ∧
      R.w = httpError w "Unable to make successful request" StatusInternalServerError) ∨
  (∃ err, env.newRequestErr r.method ("https://api.anthropic.com" ++ r.path) = some err ∧
      R.attempts.length < g.apiKeys.length ∧ R.rotations = R.attempts.length ∧
      (∀ a ∈ R.attempts, a.rateLimited = true) ∧
      R.w = httpError w ("Failed to create request: " ++ err) StatusInternalServerError) ∨
  (∃ a err, R.attempts.getLast? = some a ∧ a.result = .error err ∧
      R.rotations + 1 = R.attempts.length ∧
      R.w = httpError w ("Failed to make request with API key: " ++ err)
        StatusInternalServerError) ∨
  (∃ a resp, R.attempts.getLast? = some a ∧ a.result = .ok resp ∧
      resp.statusCode ≠ StatusTooManyRequests ∧
      R.rotations + 1 = R.attempts.length ∧ R.w = copyResponse w resp)

/-- The description of a finished run of `proxyHandler env g w r`. -/
structure RunSpec (env : Env) (g : Globals) (w : ResponseWriter) (r : InRequest)
    (R : Run) : Prop where
  keys_eq : R.g.apiKeys = g.apiKeys
  pool_wf : R.g.connPool.WF
  maxActive_eq : R.g.connPool.maxActive = g.connPool.maxActive
  length_le : R.attempts.length ≤ g.apiKeys.length
  cursor_eq : R.g.currentAPIKey = (g.currentAPIKey + R.rotations) % g.apiKeys.length
  records : ∀ t a, R.attempts[t]? = some a → AttemptSpec env g r t a
  earlier : ∀ t a, R.attempts[t]? = some a → t + 1 < R.attempts.length →
    a.rateLimited = true
  exit : ExitSpec env g w r R

/-- The invariant of the loop at the top of iteration `i`. -/
structure LoopInv (env : Env) (g : Globals) (w : ResponseWriter) (r : InRequest)
    (i : Nat) (st : Run) : Prop where
  keys_eq : st.g.apiKeys = g.apiKeys
  pool_wf : st.g.connPool.WF
  maxActive_eq : st.g.connPool.maxActive = g.connPool.maxActive
  length_eq : st.attempts.length = i
  rotations_eq : st.rotations = i
  cursor_eq : st.g.currentAPIKey = (g.currentAPIKey + i) % g.apiKeys.length
  w_eq : st.w = w
  method_eq : st.r.method = r.method
  path_eq : st.r.path = r.path
  body_eq : st.r.body = r.body
  header_eq : ∀ v, st.r.header.Set "x-api-key" v = r.header.Set "x-api-key" v
  records : ∀ t a, st.attempts[t]? = some a →
    AttemptSpec env g r t a ∧ a.rateLimited = true

/-- The response status of an attempt, none when the call returned an error. -/
def Attempt.statusCode? (a : Attempt) : Option Nat :=
  match a.result with
  | .ok resp => some resp.statusCode
  | .error _ => none

/-! ## Sequences of pool calls -/

/-- One call on the pool made by a user of it: `Get()`, or `Put(c)`. -/
inductive PoolOp where
  | get : PoolOp
  | put : Client → PoolOp
deriving DecidableEq, Repr

/-- A pool together with the clients a successful `Get` has handed out and that
have not been passed to `Put` since. -/
structure PoolSession where
  pool : ConnectionPool
  out : List Client
deriving DecidableEq, Repr

/-- One call of a session.  A `Put` of a client that is not checked out is not
a call the session allows, and a blocked `Put` never returns: `none`. -/
def PoolSession.step (s : PoolSession) : PoolOp → Option PoolSession
  | .get =>
    match s.pool.Get with
    | (p, .ok c) => some { pool := p, out := c :: s.out }
    | (p, .error _) => some { pool := p, out := s.out }
  | .put c =>
    if c ∈ s.out then
      (s.pool.Put c).map (fun p => { pool := p, out := s.out.erase c })
    else none

/-- A sequence of calls, first to last. -/
def PoolSession.run : PoolSession → List PoolOp → Option PoolSession
  | s, [] => some s
  | s, op :: ops => (s.step op).bind (fun s1 => s1.run ops)

/-- One call on a pool with no bookkeeping of who holds which client: the pool
after `Get()` or after `Put(c)`; a blocked `Put` never returns: `none`. -/
def ConnectionPool.call (p : ConnectionPool) : PoolOp → Option ConnectionPool
  | .get => some p.Get.1
  | .put c => p.Put c

/-- A sequence of `Get` and `Put` calls on a pool, first to last. -/
def ConnectionPool.calls : ConnectionPool → List PoolOp → Option ConnectionPool
  | p, [] => some p
  | p, op :: ops => (p.call op).bind (fun p1 => p1.calls ops)

/-! ## Start-up -/

/-- The pieces of `s` between the separators, for the loop of
`strings.Split(s, sep)` with a separator of one character: `cur` holds, last
character first, the piece read so far. -/
def splitChars (sep : Char) : List Char → List Char → List (List Char)
  | cur, [] => [cur.reverse]
  | cur, c :: cs =>
    if c = sep then cur.reverse :: splitChars sep [] cs
    else splitChars sep (c :: cur) cs

/-- The function `strings.Split(s, sep)` for a separator of one character, the
only kind `main.go` uses (`","`). -/
def stringsSplit (s : String) (sep : Char) : List String :=
  (splitChars sep [] s.data).map String.mk

/-- The function `os.Getenv`: the value of the variable, the empty string when
it is not set. -/
def Getenv (value : Option String) : String :=
  value.getD ""

/-- The function `init`, given the environment variable `API_KEYS` (none when
unset).  A call of `log.Fatalf` ends the process: the error carries its
message, and likewise for the panic of `NewConnectionPool`. -/
def init (apiKeysVar : Option String) : Except String Globals :=
  let apiKeysEnv := Getenv apiKeysVar
  if apiKeysEnv = "" then .error "API_KEYS environment variable not set"
  else
    let apiKeys := stringsSplit apiKeysEnv ','
    if apiKeys.length = 0 then
      .error "No API keys found in API_KEYS environment variable"
    else
      match NewConnectionPool 10 50 (190 * second) with
      | none => .error "panic: makechan: size out of range"
      | some pool => .ok { apiKeys := apiKeys, currentAPIKey := 0, connPool := pool }

/-! ## Sequences of rotations and requests -/

/-- Something that happens to the globals while the server runs: a call of
`rotateAPIKey`, or one run of `proxyHandler` on a request. -/
inductive Event where
  | rotate : Event
  | request : Env → ResponseWriter → InRequest → Event

/-- The globals after one event; `none` when it panics or never returns. -/
def Globals.step (g : Globals) : Event → Option Globals
  | .rotate => rotateAPIKey g
  | .request env w r => (proxyHandler env g w r).map (fun R => R.g)

/-- The globals after a sequence of events, first to last. -/
def Globals.after : Globals → List Event → Option Globals
  | g, [] => some g
  | g, e :: es => (g.step e).bind (fun g1 => g1.after es)

/-! ## Concrete inputs -/

/-- The pool built by `init`: `NewConnectionPool(10, 50, 190*time.Second)`. -/
def startPool : ConnectionPool :=
  { maxIdle := 10
    maxActive := 50
    idleTimeout := 190 * second
    conns := { cap := 50, buf := [] }
    created := 0 }

/-- The pool `NewConnectionPool(10, 1, 190*time.Second)`. -/
def poolOfOne : ConnectionPool :=
  { maxIdle := 10
    maxActive := 1
    idleTimeout := 190 * second
    conns := { cap := 1, buf := [] }
    created := 0 }

/-- The client number `n` constructed by a pool with `maxIdle = 10` and an idle
timeout of 190 seconds. -/
def clientNo (n : Nat) : Client :=
  { id := n
    maxIdleConns := 10
    maxIdleConnsPerHost := 10
    idleConnTimeout := 190 * second
    timeout := 200 * second }

/-- The globals after `init` with `API_KEYS=A,B,C`, the cursor at `k`. -/
def keysABC (k : Nat) : Globals :=
  { apiKeys := ["A", "B", "C"], currentAPIKey := k, connPool := startPool }

/-- The globals after `init` with `API_KEYS=A`. -/
def keysA : Globals :=
  { apiKeys := ["A"], currentAPIKey := 0, connPool := startPool }

/-- An inbound request. -/
def sampleRequest : InRequest :=
  { method := "POST"
    path := "/v1/messages"
    header := [("Content-Type", ["application/json"]), ("X-Api-Key", ["caller"])]
    body := { id := 0 } }

/-- An upstream that answers the calls of a run from a script, by iteration,
and with `last` once the script is used up; every request can be built. -/
def scripted (script : List (Except String Response)) (last : Except String Response) :
    Env :=
  { newRequestErr := fun _ _ => none
    clientDo := fun i _ _ => (script[i]?).getD last }

/-- A 429 response. -/
def tooMany : Response := { statusCode := 429, body := "slow down", readErr := none }

/-! ## The pool methods -/

theorem header_set_set (h : Header) (k v v1 : String) :
    (h.Set k v).Set k v1 = h.Set k v1 := by
  simp [Header.Set, List.filter_filter]

theorem get_wf {p : ConnectionPool} (hp : p.WF) : p.Get.1.WF := by
  obtain ⟨h1, h2⟩ := hp
  unfold ConnectionPool.Get
  split
  · rename_i conn rest hb
    rw [hb] at h2
    simp only [List.length_cons] at h2
    exact ⟨h1, by simp only; omega⟩
  · rename_i hb
    split
    · exact ⟨h1, h2⟩
    · exact ⟨h1, h2⟩

theorem get_maxActive (p : ConnectionPool) : p.Get.1.maxActive = p.maxActive := by
  unfold ConnectionPool.Get
  split
  · rfl
  · split <;> rfl

theorem get_error {p : ConnectionPool} {p1 : ConnectionPool} {err : String}
    (h : p.Get = (p1, .error err)) :
    p.maxActive ≤ 0 ∧ err = "connection pool exhausted" ∧ p1 = p ∧ p.conns.buf = [] := by
  unfold ConnectionPool.Get at h
  split at h
  · simp at h
  · rename_i hb
    split at h
    · rename_i hge
      simp only [Prod.mk.injEq, Except.error.injEq] at h
      rw [hb] at hge
      simp only [List.length_nil, Nat.cast_zero, ge_iff_le] at hge
      exact ⟨hge, h.2.symm, h.1.symm, hb⟩
    · simp at h

theorem put_wf {p : ConnectionPool} (hp : p.WF) (c : Client) :
    ∃ p1, p.Put c = some p1 ∧ p1.WF ∧ p1.maxActive = p.maxActive := by
  obtain ⟨h1, h2⟩ := hp
  unfold ConnectionPool.Put
  by_cases hge : (p.conns.buf.length : Int) ≥ p.maxActive
  · rw [if_pos hge]
    exact ⟨p, rfl, ⟨h1, h2⟩, rfl⟩
  · rw [if_neg hge]
    have hlt : p.conns.buf.length < p.conns.cap := by omega
    rw [if_pos hlt]
    refine ⟨_, rfl, ⟨h1, ?_⟩, rfl⟩
    simp only [List.length_append, List.length_singleton]
    omega

theorem do_spec (cd : Client → OutRequest → Except String Response)
    {p : ConnectionPool} (hp : p.WF) (req : OutRequest) :
    ∃ d, p.Do cd req = some d ∧ d.pool.WF ∧ d.pool.maxActive = p.maxActive ∧
      (d.client = none →
        p.maxActive ≤ 0 ∧ d.result = .error "connection pool exhausted") ∧
      (∀ c, d.client = some c → d.result = cd c req) := by
  have hg := get_wf hp
  have hm := get_maxActive p
  unfold ConnectionPool.Do
  rcases hget : p.Get with ⟨p1, res⟩
  rw [hget] at hg hm
  cases res with
  | error err =>
    obtain ⟨h0, he, -, -⟩ := get_error hget
    subst he
    exact ⟨_, rfl, hg, hm, fun _ => ⟨h0, rfl⟩, fun c hc => by simp at hc⟩
  | ok conn =>
    simp only
    cases hcd : cd conn req with
    | error err =>
      refine ⟨_, rfl, hg, hm, fun hc => by simp at hc, fun c hc => ?_⟩
      simp only [Option.some.injEq] at hc
      subst hc
      exact hcd.symm
    | ok resp =>
      obtain ⟨p2, hput, hwf2, hm2⟩ := put_wf hg conn
      simp only [hput]
      refine ⟨_, rfl, hwf2, hm2.trans hm, fun hc => by simp at hc, fun c hc => ?_⟩
      simp only [Option.some.injEq] at hc
      subst hc
      exact hcd.symm

/-! ## The loop of the handler -/

theorem getElem?_snoc {α : Type} {l : List α} {a b : α} {t : Nat}
    (h : (l ++ [a])[t]? = some b) :
    (t < l.length ∧ l[t]? = some b) ∨ (t = l.length ∧ b = a) := by
  rcases Nat.lt_or_ge t l.length with hlt | hge
  · left
    rw [List.getElem?_append_left hlt] at h
    exact ⟨hlt, h⟩
  · right
    rw [List.getElem?_append_right hge] at h
    rcases Nat.eq_or_lt_of_le hge with heq | hgt
    · subst heq
      simp at h
      exact ⟨rfl, h.symm⟩
    · have : t - l.length ≠ 0 := by omega
      obtain ⟨m, hm⟩ := Nat.exists_eq_succ_of_ne_zero this
      rw [hm] at h
      simp at h

theorem mem_of_records {α : Type} {l : List α} {P : α → Prop}
    (h : ∀ (t : Nat) (a : α), l[t]? = some a → P a) : ∀ a ∈ l, P a := by
  intro a ha
  obtain ⟨t, ht⟩ := List.mem_iff_getElem?.mp ha
  exact h t a ht

theorem copy_branch (g : Globals) (w : ResponseWriter) (r : InRequest)
    (attempts : List Attempt) (rotations : Nat) (resp : Response) :
    (match ioCopy w resp with
      | (w1, some err) =>
        some (Run.mk g
          (httpError w1 ("Failed to write response: " ++ err) StatusInternalServerError)
          r attempts rotations)
      | (w1, none) => some (Run.mk g w1 r attempts rotations)) =
      some (Run.mk g (copyResponse w resp) r attempts rotations) := by
  unfold copyResponse
  rcases ioCopy w resp with ⟨w1, _ | err⟩ <;> rfl

theorem rotate_some (g : Globals) (h : 0 < g.apiKeys.length) :
    rotateAPIKey g =
      some ⟨g.apiKeys, (g.currentAPIKey + 1) % g.apiKeys.length, g.connPool⟩ := by
  unfold rotateAPIKey
  rw [if_neg (by omega)]

theorem loop_spec (env : Env) (g : Globals) (w : ResponseWriter) (r : InRequest) :
    ∀ (fuel i : Nat) (st : Run), fuel + i = g.apiKeys.length →
      LoopInv env g w r i st →
      ∃ R, proxyLoop env fuel i st = some R ∧ RunSpec env g w r R := by
  intro fuel
  induction fuel with
  | zero =>
    intro i st hi inv
    refine ⟨_, rfl, ?_⟩
    have hlen : st.attempts.length = g.apiKeys.length := by rw [inv.length_eq]; omega
    exact
      { keys_eq := inv.keys_eq
        pool_wf := inv.pool_wf
        maxActive_eq := inv.maxActive_eq
        length_le := by simp only; omega
        cursor_eq := by simp only; rw [inv.cursor_eq, inv.rotations_eq]
        records := fun t a h => (inv.records t a h).1
        earlier := fun t a h _ => (inv.records t a h).2
        exit := Or.inl ⟨hlen, by simp only; rw [inv.rotations_eq, inv.length_eq],
          mem_of_records (fun t a h => (inv.records t a h).2), by simp only; rw [inv.w_eq]⟩ }
  | succ n ih =>
    intro i st hi inv
    have hN : 0 < g.apiKeys.length := by omega
    have hcur : st.g.currentAPIKey < st.g.apiKeys.length := by
      rw [inv.cursor_eq, inv.keys_eq]
      exact Nat.mod_lt _ hN
    obtain ⟨apiKey, hkey⟩ : ∃ k, st.g.apiKeys[st.g.currentAPIKey]? = some k :=
      ⟨_, List.getElem?_eq_getElem hcur⟩
    rw [proxyLoop]
    simp only [hkey]
    cases hnr : env.newRequestErr st.r.method ("https://api.anthropic.com" ++ st.r.path) with
    | some err =>
      simp only
      refine ⟨_, rfl, ?_⟩
      exact
        { keys_eq := inv.keys_eq
          pool_wf := inv.pool_wf
          maxActive_eq := inv.maxActive_eq
          length_le := by simp only; rw [inv.length_eq]; omega
          cursor_eq := by simp only; rw [inv.cursor_eq, inv.rotations_eq]
          records := fun t a h => (inv.records t a h).1
          earlier := fun t a h _ => (inv.records t a h).2
          exit := Or.inr (Or.inl ⟨err, by rw [← inv.method_eq, ← inv.path_eq]; exact hnr,
            by simp only; rw [inv.length_eq]; omega,
            by simp only; rw [inv.rotations_eq, inv.length_eq],
            mem_of_records (fun t a h => (inv.records t a h).2),
            by simp only; rw [inv.w_eq]⟩) }
    | none =>
      simp only
      obtain ⟨⟨pool, client, result⟩, hdo, hdwf, hdm, hdnone, hdsome⟩ :=
        do_spec (env.clientDo i) inv.pool_wf (outbound st.r apiKey)
      rw [hdo]
      simp only at hdwf hdm hdnone hdsome ⊢
      have hreq : outbound st.r apiKey = outbound r apiKey := by
        simp only [outbound, inv.method_eq, inv.path_eq, inv.body_eq, inv.header_eq]
      have hhdr : (outbound st.r apiKey).header = st.r.header.Set "x-api-key" apiKey := rfl
      rw [hreq] at hdsome
      rw [hhdr, hreq]
      have hspec : AttemptSpec env g r i
          ⟨i, st.g.currentAPIKey, apiKey, outbound r apiKey, client, result⟩ :=
        { index_eq := rfl
          cursor_eq := inv.cursor_eq
          key_eq := by simp only; rw [← inv.keys_eq]; exact hkey
          req_eq := rfl
          no_client := fun h => by
            have := hdnone h
            rw [inv.maxActive_eq] at this
            exact this
          with_client := fun c h => hdsome c h }
      have hrecs : ∀ (t : Nat) (a : Attempt), (st.attempts ++
            [⟨i, st.g.currentAPIKey, apiKey, outbound r apiKey, client, result⟩])[t]? = some a →
          AttemptSpec env g r t a ∧ (t + 1 < i + 1 → a.rateLimited = true) := by
        intro t a h
        rcases getElem?_snoc h with ⟨_, h1⟩ | ⟨h1, h2⟩
        · exact ⟨(inv.records t a h1).1, fun _ => (inv.records t a h1).2⟩
        · rw [inv.length_eq] at h1
          subst h1 h2
          exact ⟨hspec, fun hlt => absurd hlt (by omega)⟩
      cases result with
      | error err =>
        simp only
        refine ⟨_, rfl, ?_⟩
        exact
          { keys_eq := inv.keys_eq
            pool_wf := hdwf
            maxActive_eq := hdm.trans inv.maxActive_eq
            length_le := by simp [inv.length_eq]; omega
            cursor_eq := by simp only; rw [inv.cursor_eq, inv.rotations_eq]
            records := fun t a h => (hrecs t a h).1
            earlier := fun t a h hlt =>
              (hrecs t a h).2 (by simpa [inv.length_eq] using hlt)
            exit := Or.inr (Or.inr (Or.inl
              ⟨⟨i, st.g.currentAPIKey, apiKey, outbound r apiKey, client, .error err⟩, err,
                by simp, rfl, by simp [inv.rotations_eq, inv.length_eq],
                by simp only; rw [inv.w_eq]⟩)) }
      | ok resp =>
        simp only
        by_cases h429 : resp.statusCode = StatusTooManyRequests
        · rw [if_pos h429]
          rw [rotate_some _ (by simp only; rw [inv.keys_eq]; exact hN)]
          simp only
          apply ih (i + 1) _ (by omega)
          exact
            { keys_eq := inv.keys_eq
              pool_wf := hdwf
              maxActive_eq := hdm.trans inv.maxActive_eq
              length_eq := by simp [inv.length_eq]
              rotations_eq := by simp [inv.rotations_eq]
              cursor_eq := by
                simp only
                rw [inv.cursor_eq, inv.keys_eq, Nat.mod_add_mod, Nat.add_assoc]
              w_eq := inv.w_eq
              method_eq := inv.method_eq
              path_eq := inv.path_eq
              body_eq := inv.body_eq
              header_eq := fun v => by
                simp only
                rw [header_set_set, inv.header_eq]
              records := fun t a h => by
                simp only at h
                rcases getElem?_snoc h with ⟨_, h1⟩ | ⟨h1, h2⟩
                · exact inv.records t a h1
                · rw [inv.length_eq] at h1
                  subst h1 h2
                  refine ⟨hspec, ?_⟩
                  simp [Attempt.rateLimited, h429] }
        · rw [if_neg h429]
          rw [copy_branch]
          refine ⟨_, rfl, ?_⟩
          exact
            { keys_eq := inv.keys_eq
              pool_wf := hdwf
              maxActive_eq := hdm.trans inv.maxActive_eq
              length_le := by simp [inv.length_eq]; omega
              cursor_eq := by simp only; rw [inv.cursor_eq, inv.rotations_eq]
              records := fun t a h => (hrecs t a h).1
              earlier := fun t a h hlt =>
                (hrecs t a h).2 (by simpa [inv.length_eq] using hlt)
              exit := Or.inr (Or.inr (Or.inr
                ⟨⟨i, st.g.currentAPIKey, apiKey, outbound r apiKey, client, .ok resp⟩, resp,
                  by simp, rfl, h429, by simp [inv.rotations_eq, inv.length_eq],
                  by simp only; rw [inv.w_eq]⟩)) }

theorem run_spec (env : Env) (g : Globals) (w : ResponseWriter) (r : InRequest)
    (hp : g.connPool.WF) (hk : g.currentAPIKey < g.apiKeys.length ∨ g.apiKeys = []) :
    ∃ R, proxyHandler env g w r = some R ∧ RunSpec env g w r R := by
  apply loop_spec env g w r g.apiKeys.length 0 _ rfl
  exact
    { keys_eq := rfl
      pool_wf := hp
      maxActive_eq := rfl
      length_eq := rfl
      rotations_eq := rfl
      cursor_eq := by
        rcases hk with hk | hk
        · simp only [Nat.add_zero]
          exact (Nat.mod_eq_of_lt hk).symm
        · simp [hk]
      w_eq := rfl
      method_eq := rfl
      path_eq := rfl
      body_eq := rfl
      header_eq := fun _ => rfl
      records := fun t a h => by simp at h }

/-! ## Consequences of the run description -/

theorem served_httpError_fresh (msg : String) (code : Nat) :
    served (httpError ResponseWriter.fresh msg code) = (code, msg ++ "\n") := rfl

theorem served_copy_fresh (resp : Response) (h : resp.readErr = none) :
    served (copyResponse ResponseWriter.fresh resp) = (StatusOK, resp.body) := by
  unfold copyResponse ioCopy
  rw [h]
  simp only
  by_cases hb : resp.body = ""
  · rw [if_pos hb, hb]
    rfl
  · rw [if_neg hb]
    rfl

theorem rateLimited_ok {a : Attempt} {resp : Response} (h : a.result = .ok resp) :
    a.rateLimited = true ↔ resp.statusCode = StatusTooManyRequests := by
  simp [Attempt.rateLimited, h]

theorem rateLimited_error {a : Attempt} {err : String} (h : a.result = .error err) :
    a.rateLimited = false := by
  simp [Attempt.rateLimited, h]

theorem RunSpec.sent {env : Env} {g : Globals} {w : ResponseWriter} {r : InRequest}
    {R : Run} (hR : RunSpec env g w r R) (hmax : 0 < g.connPool.maxActive)
    {t : Nat} {a : Attempt} (ha : R.attempts[t]? = some a) :
    ∃ c, a.client = some c ∧ a.result = env.clientDo t c (outbound r a.apiKey) := by
  have hs := hR.records t a ha
  cases hc : a.client with
  | none =>
    have := (hs.no_client hc).1
    omega
  | some c =>
    refine ⟨c, rfl, ?_⟩
    rw [← hs.req_eq]
    exact hs.with_client c hc

theorem RunSpec.exit_limited {env : Env} {g : Globals} {w : ResponseWriter}
    {r : InRequest} {R : Run} (hR : RunSpec env g w r R)
    (hall : ∀ a ∈ R.attempts, a.rateLimited = true) :
    R.rotations = R.attempts.length ∧
      ((R.attempts.length = g.apiKeys.length ∧
          R.w = httpError w "Unable to make successful request" StatusInternalServerError) ∨
        (∃ err, env.newRequestErr r.method ("https://api.anthropic.com" ++ r.path) = some err ∧
          R.attempts.length < g.apiKeys.length ∧
          R.w = httpError w ("Failed to create request: " ++ err)
            StatusInternalServerError)) := by
  rcases hR.exit with ⟨h1, h2, -, h4⟩ | ⟨err, h1, h2, h3, -, h5⟩ |
    ⟨a, err, h1, h2, -, -⟩ | ⟨a, resp, h1, h2, h3, -, -⟩
  · exact ⟨h2, Or.inl ⟨h1, h4⟩⟩
  · exact ⟨h3, Or.inr ⟨err, h1, h2, h5⟩⟩
  · have := hall a (List.mem_of_mem_getLast? h1)
    rw [rateLimited_error h2] at this
    exact absurd this (by decide)
  · have := hall a (List.mem_of_mem_getLast? h1)
    rw [rateLimited_ok h2] at this
    exact absurd this h3

theorem RunSpec.exit_other {env : Env} {g : Globals} {w : ResponseWriter}
    {r : InRequest} {R : Run} (hR : RunSpec env g w r R)
    {t : Nat} {a : Attempt} (ha : R.attempts[t]? = some a) (hna : a.rateLimited = false) :
    R.rotations = t ∧ R.attempts.length = t + 1 ∧ R.attempts.getLast? = some a ∧
      ((∃ err, a.result = .error err ∧
          R.w = httpError w ("Failed to make request with API key: " ++ err)
            StatusInternalServerError) ∨
        (∃ resp, a.result = .ok resp ∧ resp.statusCode ≠ StatusTooManyRequests ∧
          R.w = copyResponse w resp)) := by
  have hmem : a ∈ R.attempts := List.mem_iff_getElem?.mpr ⟨t, ha⟩
  have hlt : t < R.attempts.length := by
    rcases Nat.lt_or_ge t R.attempts.length with h | h
    · exact h
    · rw [List.getElem?_eq_none h] at ha
      exact absurd ha (by simp)
  have hlen : R.attempts.length = t + 1 := by
    rcases Nat.lt_or_ge (t + 1) R.attempts.length with h | h
    · have := hR.earlier t a ha h
      rw [hna] at this
      exact absurd this (by decide)
    · omega
  have hlast : R.attempts.getLast? = some a := by
    rw [List.getLast?_eq_getElem?, hlen, Nat.add_sub_cancel]
    exact ha
  have hno : ¬ ∀ b ∈ R.attempts, b.rateLimited = true := fun hall => by
    have := hall a hmem
    rw [hna] at this
    exact absurd this (by decide)
  rcases hR.exit with ⟨-, -, h3, -⟩ | ⟨err, -, -, -, h4, -⟩ |
    ⟨b, err, h1, h2, h3, h4⟩ | ⟨b, resp, h1, h2, h3, h4, h5⟩
  · exact absurd h3 hno
  · exact absurd h4 hno
  · rw [hlast] at h1
    cases h1
    exact ⟨by omega, hlen, hlast, Or.inl ⟨err, h2, h4⟩⟩
  · rw [hlast] at h1
    cases h1
    exact ⟨by omega, hlen, hlast, Or.inr ⟨resp, h2, h3, h5⟩⟩

/-! ## Credential rotation -/

theorem rotateTimes_spec (m : Nat) : ∀ g : Globals,
    g.currentAPIKey < g.apiKeys.length →
    rotateTimes m g =
      some ⟨g.apiKeys, (g.currentAPIKey + m) % g.apiKeys.length, g.connPool⟩ := by
  induction m with
  | zero =>
    intro g hk
    simp only [rotateTimes, Nat.add_zero, Nat.mod_eq_of_lt hk]
  | succ m ih =>
    intro g hk
    have hN : 0 < g.apiKeys.length := by omega
    rw [rotateTimes, rotate_some g hN, Option.some_bind, ih _ (Nat.mod_lt _ hN)]
    simp only [Nat.mod_add_mod]
    rw [Nat.add_assoc, Nat.add_comm 1 m]

/-- C1: rotation is circular.  On a non-empty credential list with the cursor
at `k < N`, `m` consecutive calls of `rotateAPIKey` leave the cursor at
`(k + m) mod N` and change nothing else; one call maps `k` to `(k + 1) mod N`
and `N` calls bring the cursor back to `k`. -/
theorem rotateAPIKey_circular (g : Globals) (hk : g.currentAPIKey < g.apiKeys.length) :
    (∀ m, rotateTimes m g =
        some { g with currentAPIKey := (g.currentAPIKey + m) % g.apiKeys.length }) ∧
      rotateAPIKey g =
        some { g with currentAPIKey := (g.currentAPIKey + 1) % g.apiKeys.length } ∧
      rotateTimes g.apiKeys.length g = some g := by
  refine ⟨fun m => rotateTimes_spec m g hk, rotate_some g (by omega), ?_⟩
  rw [rotateTimes_spec _ g hk, Nat.add_mod_right, Nat.mod_eq_of_lt hk]

/-- The statement of C1 on the list `A, B, C` from the cursor 1: five
rotations end at index 0, one at index 2, three at index 1 again. -/
theorem rotateAPIKey_circular_witness :
    (keysABC 1).currentAPIKey < (keysABC 1).apiKeys.length ∧
      rotateTimes 5 (keysABC 1) = some (keysABC 0) ∧
      rotateAPIKey (keysABC 1) = some (keysABC 2) ∧
      rotateTimes 3 (keysABC 1) = some (keysABC 1) :=
  ⟨by decide, (rotateAPIKey_circular (keysABC 1) (by decide)).1 5,
    (rotateAPIKey_circular (keysABC 1) (by decide)).2.1,
    (rotateAPIKey_circular (keysABC 1) (by decide)).2.2⟩

/-! ## The connection pool: claims -/

/-- C4 (what the code does at the failing input): the pool
`NewConnectionPool(10, 1, _)` hands out its one client, nothing is put back,
and the next `Get` does not return "connection pool exhausted" but a second,
newly constructed client. -/
theorem get_at_capacity_constructs :
    NewConnectionPool 10 1 (190 * second) = some poolOfOne ∧
      poolOfOne.Get = ({ poolOfOne with created := 1 }, .ok (clientNo 0)) ∧
      ({ poolOfOne with created := 1 } : ConnectionPool).conns.buf = [] ∧
      ({ poolOfOne with created := 1 } : ConnectionPool).Get =
        ({ poolOfOne with created := 2 }, .ok (clientNo 1)) :=
  ⟨rfl, rfl, rfl, rfl⟩

/-- C5 (what the code does at the failing input): on the pool
`NewConnectionPool(10, 1, _)` the calls `Get(); Get()` both succeed, so two
clients are checked out while `maxActive` is 1. -/
theorem checked_out_exceeds_maxActive :
    (PoolSession.run { pool := poolOfOne, out := [] } [.get, .get]).map
        (fun s => (s.out, s.pool.maxActive)) =
      some ([clientNo 1, clientNo 0], 1) := by
  decide

/-- C9 (counterexample): after `Get(); Get(); Put(c0)` on the start-up pool the
queue holds `c0`; the call `Put(c1)` releases `c1`, the queue is non-empty, and
the next `Get` returns `c0`, not the released `c1`. -/
theorem get_after_put_counterexample :
    (PoolSession.run { pool := startPool, out := [] }
        [.get, .get, .put (clientNo 0), .put (clientNo 1)]).map
        (fun s => (s.pool.conns.buf, s.pool.Get.2.toOption, s.pool.Get.1.created)) =
      some ([clientNo 0, clientNo 1], some (clientNo 0), 2) ∧
      clientNo 0 ≠ clientNo 1 := by
  decide

/-- C9 (amended): after `Put(c)`, if the idle queue is non-empty at the next
`Get`, that `Get` constructs no client and returns the oldest idle client: the
head of the queue as it was before `Put(c)` followed by `c`; this is `c` itself
when the queue was empty before the `Put`. -/
theorem get_after_put (p p1 : ConnectionPool) (c : Client)
    (hput : p.Put c = some p1) (hne : p1.conns.buf ≠ []) :
    ∃ x, (p.conns.buf ++ [c]).head? = some x ∧ p1.Get.2 = .ok x ∧
      p1.Get.1.created = p1.created ∧ (p.conns.buf = [] → x = c) := by
  unfold ConnectionPool.Put at hput
  split at hput
  · simp only [Option.some.injEq] at hput
    subst hput
    cases hb : p.conns.buf with
    | nil => exact absurd hb hne
    | cons x rest =>
      refine ⟨x, rfl, ?_, ?_, fun h => by simp at h⟩
      · unfold ConnectionPool.Get
        simp only [hb]
      · unfold ConnectionPool.Get
        simp only [hb]
  · split at hput
    · simp only [Option.some.injEq] at hput
      subst hput
      cases hb : p.conns.buf with
      | nil =>
        refine ⟨c, rfl, ?_, ?_, fun _ => rfl⟩
        · unfold ConnectionPool.Get
          simp only [hb, List.nil_append]
        · unfold ConnectionPool.Get
          simp only [hb, List.nil_append]
      | cons x rest =>
        refine ⟨x, rfl, ?_, ?_, fun h => by simp at h⟩
        · unfold ConnectionPool.Get
          simp only [hb, List.cons_append]
        · unfold ConnectionPool.Get
          simp only [hb, List.cons_append]
    · simp at hput

/-- The amended C9 on the start-up pool with an empty queue: the released
client is queued and the next `Get` returns it. -/
theorem get_after_put_witness :
    startPool.Put (clientNo 7) =
        some { startPool with conns := { cap := 50, buf := [clientNo 7] } } ∧
      ∃ x, (startPool.conns.buf ++ [clientNo 7]).head? = some x ∧
        ({ startPool with conns := { cap := 50, buf := [clientNo 7] } } :
          ConnectionPool).Get.2 = .ok x ∧
        ({ startPool with conns := { cap := 50, buf := [clientNo 7] } } :
          ConnectionPool).Get.1.created =
          ({ startPool with conns := { cap := 50, buf := [clientNo 7] } } :
            ConnectionPool).created ∧
        (startPool.conns.buf = [] → x = clientNo 7) :=
  ⟨rfl, get_after_put startPool _ (clientNo 7) rfl (by decide)⟩

/-! ## The handler: claims -/

/-- C2 (counterexample): the upstream answers the first attempt with status 503
and body `upstream down`; the caller receives that body under status 200, not
503. -/
theorem upstream_status_counterexample :
    (proxyHandler (scripted [] (.ok { statusCode := 503, body := "upstream down", readErr := none }))
        (keysABC 0) ResponseWriter.fresh sampleRequest).map
        (fun R => (R.attempts.map Attempt.statusCode?, served R.w)) =
      some ([some 503], (200, "upstream down")) := by
  decide

/-- C2 (amended): whichever attempt of a run obtains a response whose status is
not 429 and whose body `b` is read to its end, the caller receives exactly `b`,
under status 200: the upstream status code is not passed on. -/
theorem proxyHandler_copies_body (env : Env) (g : Globals) (r : InRequest)
    (hg : g.Ready) :
    ∃ R, proxyHandler env g ResponseWriter.fresh r = some R ∧
      ∀ a ∈ R.attempts, ∀ resp, a.result = .ok resp →
        resp.statusCode ≠ StatusTooManyRequests → resp.readErr = none →
        served R.w = (StatusOK, resp.body) := by
  obtain ⟨R, hrun, hR⟩ := run_spec env g ResponseWriter.fresh r hg.2 (Or.inl hg.1)
  refine ⟨R, hrun, fun a ha resp hres hs herr => ?_⟩
  obtain ⟨t, ht⟩ := List.mem_iff_getElem?.mp ha
  have hna : a.rateLimited = false := by
    cases h : a.rateLimited with
    | false => rfl
    | true => exact absurd ((rateLimited_ok hres).mp h) hs
  obtain ⟨-, -, -, ⟨err, he, -⟩ | ⟨resp1, h1, -, hw⟩⟩ := hR.exit_other ht hna
  · rw [hres] at he
    cases he
  · rw [hres] at h1
    cases h1
    rw [hw]
    exact served_copy_fresh resp herr

/-- The amended C2 at the 503 of the spec's scenario: the run exists and the
caller is served `(200, body)`. -/
theorem proxyHandler_copies_body_witness :
    (keysABC 0).Ready ∧
      (proxyHandler
        (scripted [] (.ok { statusCode := 503, body := "upstream down", readErr := none }))
        (keysABC 0) ResponseWriter.fresh sampleRequest).map
        (fun R => (R.attempts.map Attempt.statusCode?, served R.w)) =
        some ([some 503], (200, "upstream down")) ∧
      ∃ R, proxyHandler
          (scripted [] (.ok { statusCode := 503, body := "upstream down", readErr := none }))
          (keysABC 0) ResponseWriter.fresh sampleRequest = some R ∧
        ∀ a ∈ R.attempts, ∀ resp, a.result = .ok resp →
          resp.statusCode ≠ StatusTooManyRequests → resp.readErr = none →
          served R.w = (StatusOK, resp.body) :=
  ⟨by decide, by decide,
    proxyHandler_copies_body _ (keysABC 0) sampleRequest (by decide)⟩

/-- C3: on `N ≥ 1` credentials with the cursor at `k`, when every request can
be built and the upstream answers 429 to every call, one run makes exactly `N`
attempts, each carried by a client and each answered 429, replies 500 with the
message `Unable to make successful request`, rotates exactly `N` times and
leaves the cursor at `(k + N) mod N = k`. -/
theorem proxyHandler_all_rate_limited (env : Env) (g : Globals) (r : InRequest)
    (hg : g.Ready) (hmax : 0 < g.connPool.maxActive)
    (hreq : env.newRequestErr r.method ("https://api.anthropic.com" ++ r.path) = none)
    (h429 : ∀ i c q, ∃ resp, env.clientDo i c q = .ok resp ∧
      resp.statusCode = StatusTooManyRequests) :
    ∃ R, proxyHandler env g ResponseWriter.fresh r = some R ∧
      R.attempts.length = g.apiKeys.length ∧
      (∀ a ∈ R.attempts, a.client.isSome = true ∧ a.rateLimited = true) ∧
      served R.w = (StatusInternalServerError, "Unable to make successful request\n") ∧
      R.rotations = g.apiKeys.length ∧
      R.g.currentAPIKey = (g.currentAPIKey + g.apiKeys.length) % g.apiKeys.length ∧
      R.g.currentAPIKey = g.currentAPIKey := by
  obtain ⟨R, hrun, hR⟩ := run_spec env g ResponseWriter.fresh r hg.2 (Or.inl hg.1)
  refine ⟨R, hrun, ?_⟩
  have hall : ∀ a ∈ R.attempts, a.client.isSome = true ∧ a.rateLimited = true := by
    intro a ha
    obtain ⟨t, ht⟩ := List.mem_iff_getElem?.mp ha
    obtain ⟨c, hc, hres⟩ := hR.sent hmax ht
    obtain ⟨resp, h1, h2⟩ := h429 t c (outbound r a.apiKey)
    rw [h1] at hres
    exact ⟨by rw [hc]; rfl, (rateLimited_ok hres).mpr h2⟩
  obtain ⟨hrot, ⟨hlen, hw⟩ | ⟨err, he, -, -⟩⟩ := hR.exit_limited (fun a ha => (hall a ha).2)
  · have hcur := hR.cursor_eq
    rw [hrot, hlen] at hcur
    refine ⟨hlen, hall, ?_, by rw [hrot, hlen], hcur, ?_⟩
    · rw [hw]
      rfl
    · rw [hcur, Nat.add_mod_right, Nat.mod_eq_of_lt hg.1]
  · rw [hreq] at he
    cases he

/-- The statement of C3 for the single credential `A`: one attempt, then the
500. -/
theorem proxyHandler_all_rate_limited_witness :
    keysA.Ready ∧ 0 < keysA.connPool.maxActive ∧
      ∃ R, proxyHandler (scripted [] (.ok tooMany)) keysA ResponseWriter.fresh
          sampleRequest = some R ∧
        R.attempts.length = 1 ∧
        (∀ a ∈ R.attempts, a.client.isSome = true ∧ a.rateLimited = true) ∧
        served R.w = (500, "Unable to make successful request\n") ∧
        R.rotations = 1 ∧
        R.g.currentAPIKey = (0 + 1) % 1 ∧
        R.g.currentAPIKey = 0 :=
  ⟨by decide, by decide,
    proxyHandler_all_rate_limited (scripted [] (.ok tooMany)) keysA sampleRequest
      (by decide) (by decide) rfl (fun _ _ _ => ⟨tooMany, rfl, rfl⟩)⟩

/-- C6: when the first attempt of a run obtains a response whose status is not
429, the run makes exactly one attempt, never calls `rotateAPIKey`, and leaves
the cursor where it was. -/
theorem proxyHandler_first_not_rate_limited (env : Env) (g : Globals)
    (w : ResponseWriter) (r : InRequest) (hg : g.Ready) :
    ∃ R, proxyHandler env g w r = some R ∧
      ∀ a resp, R.attempts.head? = some a → a.result = .ok resp →
        resp.statusCode ≠ StatusTooManyRequests →
        R.attempts.length = 1 ∧ R.rotations = 0 ∧
          R.g.currentAPIKey = g.currentAPIKey := by
  obtain ⟨R, hrun, hR⟩ := run_spec env g w r hg.2 (Or.inl hg.1)
  refine ⟨R, hrun, fun a resp hhead hres hs => ?_⟩
  have ht : R.attempts[0]? = some a := by
    rw [← List.head?_eq_getElem?]
    exact hhead
  have hna : a.rateLimited = false := by
    cases h : a.rateLimited with
    | false => rfl
    | true => exact absurd ((rateLimited_ok hres).mp h) hs
  obtain ⟨hrot, hlen, -, -⟩ := hR.exit_other ht hna
  refine ⟨hlen, hrot, ?_⟩
  rw [hR.cursor_eq, hrot, Nat.add_zero, Nat.mod_eq_of_lt hg.1]

/-- The statement of C6 on the list `A, B, C` with the cursor at 1 and an
upstream that answers 503. -/
theorem proxyHandler_first_not_rate_limited_witness :
    (keysABC 1).Ready ∧
      (proxyHandler
        (scripted [] (.ok { statusCode := 503, body := "upstream down", readErr := none }))
        (keysABC 1) ResponseWriter.fresh sampleRequest).map
        (fun R => (R.attempts.map Attempt.statusCode?, R.rotations, R.g.currentAPIKey)) =
        some ([some 503], 0, 1) ∧
      ∃ R, proxyHandler
          (scripted [] (.ok { statusCode := 503, body := "upstream down", readErr := none }))
          (keysABC 1) ResponseWriter.fresh sampleRequest = some R ∧
        ∀ a resp, R.attempts.head? = some a → a.result = .ok resp →
          resp.statusCode ≠ StatusTooManyRequests →
          R.attempts.length = 1 ∧ R.rotations = 0 ∧
            R.g.currentAPIKey = (keysABC 1).currentAPIKey :=
  ⟨by decide, by decide,
    proxyHandler_first_not_rate_limited _ (keysABC 1) _ sampleRequest (by decide)⟩

/-- C7 (counterexample): credentials `A, B, C`, cursor 0, responses 429, 429 and
then 404 with body `not found`.  The run makes three attempts and ends with the
cursor at 2, but what the caller receives is `200`/`not found`: the last
response is not handed over with its status. -/
theorem rotate_then_answer_counterexample :
    (proxyHandler
        (scripted [.ok tooMany, .ok tooMany]
          (.ok { statusCode := 404, body := "not found", readErr := none }))
        (keysABC 0) ResponseWriter.fresh sampleRequest).map
        (fun R => (R.attempts.map Attempt.statusCode?, served R.w, R.g.currentAPIKey)) =
      some ([some 429, some 429, some 404], (200, "not found"), 2) := by
  decide

/-- C7 (amended): on `N` credentials with the cursor at `k` and `j < N`, when
the upstream answers 429 to the first `j` calls and the response `resp`, whose
status is not 429, to call `j + 1`, the run performs exactly `j` rotations and
`j + 1` attempts, copies the body of `resp` to the caller (who receives it
under status 200 when the body is read to its end), and ends with the cursor at
`(k + j) mod N`, the index of the credential that obtained `resp`. -/
theorem proxyHandler_rotate_then_answer (env : Env) (g : Globals) (r : InRequest)
    (j : Nat) (resp : Response)
    (hg : g.Ready) (hmax : 0 < g.connPool.maxActive)
    (hreq : env.newRequestErr r.method ("https://api.anthropic.com" ++ r.path) = none)
    (hj : j < g.apiKeys.length)
    (h429 : ∀ i, i < j → ∀ c q, ∃ resp1, env.clientDo i c q = .ok resp1 ∧
      resp1.statusCode = StatusTooManyRequests)
    (hresp : ∀ c q, env.clientDo j c q = .ok resp)
    (hs : resp.statusCode ≠ StatusTooManyRequests) :
    ∃ R, proxyHandler env g ResponseWriter.fresh r = some R ∧
      R.rotations = j ∧ R.attempts.length = j + 1 ∧
      R.w = copyResponse ResponseWriter.fresh resp ∧
      (resp.readErr = none → served R.w = (StatusOK, resp.body)) ∧
      R.g.currentAPIKey = (g.currentAPIKey + j) % g.apiKeys.length ∧
      ∃ a, R.attempts.getLast? = some a ∧ a.result = .ok resp ∧
        a.cursor = R.g.currentAPIKey ∧
        R.g.apiKeys[R.g.currentAPIKey]? = some a.apiKey := by
  obtain ⟨R, hrun, hR⟩ := run_spec env g ResponseWriter.fresh r hg.2 (Or.inl hg.1)
  refine ⟨R, hrun, ?_⟩
  have hearly : ∀ (t : Nat) (a : Attempt), R.attempts[t]? = some a → t < j →
      a.rateLimited = true := by
    intro t a ht hlt
    obtain ⟨c, -, hres⟩ := hR.sent hmax ht
    obtain ⟨resp1, h1, h2⟩ := h429 t hlt c (outbound r a.apiKey)
    rw [h1] at hres
    exact (rateLimited_ok hres).mpr h2
  have hlong : j < R.attempts.length := by
    rcases Nat.lt_or_ge j R.attempts.length with h | h
    · exact h
    · have hall : ∀ a ∈ R.attempts, a.rateLimited = true := by
        intro a ha
        obtain ⟨t, ht⟩ := List.mem_iff_getElem?.mp ha
        have hlt : t < R.attempts.length := by
          rcases Nat.lt_or_ge t R.attempts.length with h1 | h1
          · exact h1
          · rw [List.getElem?_eq_none h1] at ht
            exact absurd ht (by simp)
        exact hearly t a ht (by omega)
      obtain ⟨-, ⟨hlen, -⟩ | ⟨err, he, -, -⟩⟩ := hR.exit_limited hall
      · omega
      · rw [hreq] at he
        cases he
  obtain ⟨a, ha⟩ : ∃ a, R.attempts[j]? = some a := ⟨_, List.getElem?_eq_getElem hlong⟩
  obtain ⟨c, -, hres⟩ := hR.sent hmax ha
  rw [hresp] at hres
  have hna : a.rateLimited = false := by
    cases h : a.rateLimited with
    | false => rfl
    | true => exact absurd ((rateLimited_ok hres).mp h) hs
  obtain ⟨hrot, hlen, hlast, ⟨err, he, -⟩ | ⟨resp1, h1, -, hw⟩⟩ := hR.exit_other ha hna
  · rw [hres] at he
    cases he
  · rw [hres] at h1
    cases h1
    have hcur := hR.cursor_eq
    rw [hrot] at hcur
    have hsp := hR.records j a ha
    refine ⟨hrot, hlen, hw, fun herr => ?_, hcur, a, hlast, hres, ?_, ?_⟩
    · rw [hw]
      exact served_copy_fresh resp herr
    · rw [hcur, hsp.cursor_eq]
    · rw [hR.keys_eq, hcur, ← hsp.cursor_eq]
      exact hsp.key_eq

/-- The scenario of C7: credentials `A, B, C`, cursor 0, responses 429, 429 and
200 with body `ok`; the caller receives `200`/`ok` and the cursor ends at 2. -/
theorem proxyHandler_rotate_then_answer_witness :
    (keysABC 0).Ready ∧ 0 < (keysABC 0).connPool.maxActive ∧
      2 < (keysABC 0).apiKeys.length ∧
      ∃ R, proxyHandler
          (scripted [.ok tooMany, .ok tooMany]
            (.ok { statusCode := 200, body := "ok", readErr := none }))
          (keysABC 0) ResponseWriter.fresh sampleRequest = some R ∧
        R.rotations = 2 ∧ R.attempts.length = 2 + 1 ∧
        R.w = copyResponse ResponseWriter.fresh
          { statusCode := 200, body := "ok", readErr := none } ∧
        ((none : Option String) = none → served R.w = (200, "ok")) ∧
        R.g.currentAPIKey = (0 + 2) % 3 ∧
        ∃ a, R.attempts.getLast? = some a ∧
          a.result = .ok { statusCode := 200, body := "ok", readErr := none } ∧
          a.cursor = R.g.currentAPIKey ∧
          R.g.apiKeys[R.g.currentAPIKey]? = some a.apiKey :=
  ⟨by decide, by decide, by decide,
    proxyHandler_rotate_then_answer
      (scripted [.ok tooMany, .ok tooMany]
        (.ok { statusCode := 200, body := "ok", readErr := none }))
      (keysABC 0) sampleRequest 2 { statusCode := 200, body := "ok", readErr := none }
      (by decide) (by decide) rfl (by decide)
      (fun i hi _ _ => by
        rcases i with _ | _ | i
        · exact ⟨tooMany, rfl, rfl⟩
        · exact ⟨tooMany, rfl, rfl⟩
        · omega)
      (fun _ _ => rfl) (by decide)⟩

/-- C8: when `connPool.Do` returns an error `e` on some attempt of a run (a
pool error or a transport failure), the handler replies 500 with the message
`Failed to make request with API key: e`, that attempt is the last one of the
run, it is followed by no rotation (the rotations are those of the earlier
attempts), and the cursor is where it was when that attempt began. -/
theorem proxyHandler_do_error (env : Env) (g : Globals) (r : InRequest)
    (hg : g.Ready) :
    ∃ R, proxyHandler env g ResponseWriter.fresh r = some R ∧
      ∀ a ∈ R.attempts, ∀ e, a.result = .error e →
        served R.w = (StatusInternalServerError,
          "Failed to make request with API key: " ++ e ++ "\n") ∧
        R.attempts.getLast? = some a ∧
        R.attempts.length = a.index + 1 ∧
        R.rotations = a.index ∧
        R.g.currentAPIKey = a.cursor := by
  obtain ⟨R, hrun, hR⟩ := run_spec env g ResponseWriter.fresh r hg.2 (Or.inl hg.1)
  refine ⟨R, hrun, fun a ha e hres => ?_⟩
  obtain ⟨t, ht⟩ := List.mem_iff_getElem?.mp ha
  have hsp := hR.records t a ht
  obtain ⟨hrot, hlen, hlast, ⟨err, he, hw⟩ | ⟨resp1, h1, -, -⟩⟩ :=
    hR.exit_other ht (rateLimited_error hres)
  · rw [hres] at he
    cases he
    refine ⟨?_, hlast, by rw [hsp.index_eq]; exact hlen, by rw [hsp.index_eq]; exact hrot, ?_⟩
    · rw [hw]
      rfl
    · rw [hR.cursor_eq, hrot, hsp.cursor_eq]
  · rw [hres] at h1
    cases h1

/-- The statement of C8 on the list `A, B, C`: a 429, then a transport failure
on the second attempt; the run stops there with the cursor at 1. -/
theorem proxyHandler_do_error_witness :
    (keysABC 0).Ready ∧
      (proxyHandler (scripted [.ok tooMany] (.error "dial tcp: connection refused"))
        (keysABC 0) ResponseWriter.fresh sampleRequest).map
        (fun R => (R.attempts.map Attempt.statusCode?, served R.w, R.rotations,
          R.g.currentAPIKey)) =
        some ([some 429, none],
          (500, "Failed to make request with API key: dial tcp: connection refused\n"),
          1, 1) ∧
      ∃ R, proxyHandler (scripted [.ok tooMany] (.error "dial tcp: connection refused"))
          (keysABC 0) ResponseWriter.fresh sampleRequest = some R ∧
        ∀ a ∈ R.attempts, ∀ e, a.result = .error e →
          served R.w = (StatusInternalServerError,
            "Failed to make request with API key: " ++ e ++ "\n") ∧
          R.attempts.getLast? = some a ∧
          R.attempts.length = a.index + 1 ∧
          R.rotations = a.index ∧
          R.g.currentAPIKey = a.cursor :=
  ⟨by decide, by decide,
    proxyHandler_do_error _ (keysABC 0) sampleRequest (by decide)⟩

/-- C10: for every credential list and every behaviour of `http.NewRequest` and
of the upstream, one run of the handler returns, after at most `N` attempts and
at most `N` rotations, and it ends by answering the caller: with an
`http.Error` of status 500, or with the copy of a response that one of its
attempts obtained. -/
theorem proxyHandler_terminates (env : Env) (g : Globals) (w : ResponseWriter)
    (r : InRequest) (hp : g.connPool.WF)
    (hk : g.currentAPIKey < g.apiKeys.length ∨ g.apiKeys = []) :
    ∃ R, proxyHandler env g w r = some R ∧
      R.attempts.length ≤ g.apiKeys.length ∧
      R.rotations ≤ g.apiKeys.length ∧
      ((∃ msg, R.w = httpError w msg StatusInternalServerError) ∨
        (∃ a resp, a ∈ R.attempts ∧ a.result = .ok resp ∧
          resp.statusCode ≠ StatusTooManyRequests ∧ R.w = copyResponse w resp)) := by
  obtain ⟨R, hrun, hR⟩ := run_spec env g w r hp hk
  refine ⟨R, hrun, hR.length_le, ?_, ?_⟩
  · have := hR.length_le
    rcases hR.exit with ⟨-, h2, -, -⟩ | ⟨err, -, -, h3, -, -⟩ |
      ⟨a, err, -, -, h3, -⟩ | ⟨a, resp, -, -, -, h4, -⟩ <;> omega
  · rcases hR.exit with ⟨-, -, -, h4⟩ | ⟨err, -, -, -, -, h5⟩ |
      ⟨a, err, -, -, -, h4⟩ | ⟨a, resp, h1, h2, h3, -, h5⟩
    · exact Or.inl ⟨_, h4⟩
    · exact Or.inl ⟨_, h5⟩
    · exact Or.inl ⟨_, h4⟩
    · exact Or.inr ⟨a, resp, List.mem_of_mem_getLast? h1, h2, h3, h5⟩

/-- The statement of C10 on the list `A, B, C` with an upstream that always
answers 429: three attempts, three rotations, and a 500. -/
theorem proxyHandler_terminates_witness :
    (keysABC 2).connPool.WF ∧
      (proxyHandler (scripted [] (.ok tooMany)) (keysABC 2) ResponseWriter.fresh
        sampleRequest).map (fun R => (R.attempts.length, R.rotations, served R.w)) =
        some (3, 3, (500, "Unable to make successful request\n")) ∧
      ∃ R, proxyHandler (scripted [] (.ok tooMany)) (keysABC 2) ResponseWriter.fresh
          sampleRequest = some R ∧
        R.attempts.length ≤ (keysABC 2).apiKeys.length ∧
        R.rotations ≤ (keysABC 2).apiKeys.length ∧
        ((∃ msg, R.w = httpError ResponseWriter.fresh msg StatusInternalServerError) ∨
          (∃ a resp, a ∈ R.attempts ∧ a.result = .ok resp ∧
            resp.statusCode ≠ StatusTooManyRequests ∧
            R.w = copyResponse ResponseWriter.fresh resp)) :=
  ⟨by decide, by decide,
    proxyHandler_terminates _ (keysABC 2) _ sampleRequest (by decide) (Or.inl (by decide))⟩

/-! ## The pool after any sequence of calls -/

theorem new_wf {maxIdle maxActive : Int} {idleTimeout : Duration} {p : ConnectionPool}
    (h : NewConnectionPool maxIdle maxActive idleTimeout = some p) :
    p.WF ∧ p.maxActive = maxActive ∧ p.conns.buf = [] := by
  unfold NewConnectionPool at h
  split at h
  · simp at h
  · rename_i hneg
    simp only [Option.some.injEq] at h
    subst h
    refine ⟨⟨?_, by simp⟩, rfl, rfl⟩
    simp only
    omega

theorem call_wf {p : ConnectionPool} (hp : p.WF) (op : PoolOp) :
    ∃ p1, p.call op = some p1 ∧ p1.WF ∧ p1.maxActive = p.maxActive := by
  cases op with
  | get => exact ⟨_, rfl, get_wf hp, get_maxActive p⟩
  | put c => exact put_wf hp c

theorem calls_wf (ops : List PoolOp) : ∀ {p : ConnectionPool}, p.WF →
    ∃ p1, p.calls ops = some p1 ∧ p1.WF ∧ p1.maxActive = p.maxActive := by
  induction ops with
  | nil => exact fun hp => ⟨_, rfl, hp, rfl⟩
  | cons op ops ih =>
    intro p hp
    obtain ⟨p1, h1, hwf1, hm1⟩ := call_wf hp op
    obtain ⟨p2, h2, hwf2, hm2⟩ := ih hwf1
    refine ⟨p2, ?_, hwf2, hm2.trans hm1⟩
    rw [ConnectionPool.calls, h1, Option.some_bind, h2]

/-- C12: in every pool state reached from `NewConnectionPool` by a sequence of
`Get` and `Put` calls (each of which returns: no `Put` blocks), the idle queue
holds at most `maxActive` clients, and `Put(c)` returns, appending `c` to the
tail of the queue when it holds fewer than `maxActive` clients and leaving the
pool unchanged, `c` dropped, when it holds `maxActive`. -/
theorem put_appends_or_drops (maxIdle maxActive : Int) (idleTimeout : Duration)
    (p0 : ConnectionPool) (ops : List PoolOp)
    (h0 : NewConnectionPool maxIdle maxActive idleTimeout = some p0) :
    ∃ p, p0.calls ops = some p ∧ (p.conns.buf.length : Int) ≤ p.maxActive ∧
      ∀ c, (∃ p1, p.Put c = some p1 ∧ (p1.conns.buf.length : Int) ≤ p1.maxActive) ∧
        ((p.conns.buf.length : Int) < p.maxActive →
          p.Put c = some { p with conns := { p.conns with buf := p.conns.buf ++ [c] } }) ∧
        ((p.conns.buf.length : Int) = p.maxActive → p.Put c = some p) := by
  obtain ⟨p, hcalls, hwf, -⟩ := calls_wf ops (new_wf h0).1
  have hlen : ∀ {q : ConnectionPool}, q.WF → (q.conns.buf.length : Int) ≤ q.maxActive :=
    fun hq => by
      obtain ⟨h1, h2⟩ := hq
      omega
  refine ⟨p, hcalls, hlen hwf, fun c => ⟨?_, fun hlt => ?_, fun heq => ?_⟩⟩
  · obtain ⟨p1, h1, hwf1, -⟩ := put_wf hwf c
    exact ⟨p1, h1, hlen hwf1⟩
  · obtain ⟨h1, h2⟩ := hwf
    unfold ConnectionPool.Put
    rw [if_neg (by omega), if_pos (by omega)]
  · unfold ConnectionPool.Put
    rw [if_pos (by omega)]

/-- The statement of C12 on the start-up pool after `Get(); Put(c0)`: one idle
client, and a further `Put` appends behind it. -/
theorem put_appends_or_drops_witness :
    NewConnectionPool 10 50 (190 * second) = some startPool ∧
      ∃ p, startPool.calls [.get, .put (clientNo 0)] = some p ∧
        (p.conns.buf.length : Int) ≤ p.maxActive ∧
        ∀ c, (∃ p1, p.Put c = some p1 ∧ (p1.conns.buf.length : Int) ≤ p1.maxActive) ∧
          ((p.conns.buf.length : Int) < p.maxActive →
            p.Put c =
              some { p with conns := { p.conns with buf := p.conns.buf ++ [c] } }) ∧
          ((p.conns.buf.length : Int) = p.maxActive → p.Put c = some p) :=
  ⟨rfl, put_appends_or_drops 10 50 (190 * second) startPool _ rfl⟩

/-- C15: `Do` on a pool as `NewConnectionPool` builds it.  When `Get` fails, `Do`
returns that error, no client is called and the pool is unchanged.  When the
call of the client fails, `Do` returns that error and the pool is exactly the
one `Get` left: the client is not put back.  When the call succeeds, `Do`
returns the response after `Put`, so the client is at the tail of the idle
queue whenever the queue held fewer than `maxActive` clients. -/
theorem do_puts_back_on_success (cd : Client → OutRequest → Except String Response)
    (p : ConnectionPool) (req : OutRequest) (hp : p.WF) :
    (∀ p1 err, p.Get = (p1, .error err) →
        p.Do cd req = some { pool := p, client := none, result := .error err }) ∧
      (∀ p1 conn err, p.Get = (p1, .ok conn) → cd conn req = .error err →
        p.Do cd req = some { pool := p1, client := some conn, result := .error err }) ∧
      (∀ p1 conn resp, p.Get = (p1, .ok conn) → cd conn req = .ok resp →
        ∃ p2, p1.Put conn = some p2 ∧
          p.Do cd req = some { pool := p2, client := some conn, result := .ok resp } ∧
          ((p1.conns.buf.length : Int) < p1.maxActive →
            p2.conns.buf = p1.conns.buf ++ [conn])) := by
  refine ⟨fun p1 err hget => ?_, fun p1 conn err hget hcd => ?_,
    fun p1 conn resp hget hcd => ?_⟩
  · obtain ⟨-, -, hp1, -⟩ := get_error hget
    subst hp1
    unfold ConnectionPool.Do
    rw [hget]
  · unfold ConnectionPool.Do
    rw [hget]
    simp only [hcd]
  · have hwf1 : p1.WF := by
      have := get_wf hp
      rw [hget] at this
      exact this
    obtain ⟨p2, hput, -, -⟩ := put_wf hwf1 conn
    refine ⟨p2, hput, ?_, fun hlt => ?_⟩
    · unfold ConnectionPool.Do
      rw [hget]
      simp only [hcd, hput]
    · obtain ⟨h1, h2⟩ := hwf1
      unfold ConnectionPool.Put at hput
      rw [if_neg (by omega), if_pos (by omega)] at hput
      simp only [Option.some.injEq] at hput
      subst hput
      rfl

/-- The statement of C15 on the start-up pool. -/
theorem do_puts_back_on_success_witness :
    startPool.WF ∧
      (startPool.Do (fun _ _ => .error "timeout") (outbound sampleRequest "A")).map
        (fun d => (d.pool.conns.buf, d.client)) = some ([], some (clientNo 0)) ∧
      (startPool.Do (fun _ _ => .ok tooMany) (outbound sampleRequest "A")).map
        (fun d => (d.pool.conns.buf, d.client)) = some ([clientNo 0], some (clientNo 0)) ∧
      (∀ p1 conn resp, startPool.Get = (p1, .ok conn) →
        (.ok tooMany : Except String Response) = .ok resp →
        ∃ p2, p1.Put conn = some p2 ∧
          startPool.Do (fun _ _ => .ok tooMany) (outbound sampleRequest "A") =
            some { pool := p2, client := some conn, result := .ok resp } ∧
          ((p1.conns.buf.length : Int) < p1.maxActive →
            p2.conns.buf = p1.conns.buf ++ [conn])) :=
  ⟨by decide, by decide, by decide,
    (do_puts_back_on_success (fun _ _ => .ok tooMany) startPool
      (outbound sampleRequest "A") (by decide)).2.2⟩

/-- C17: in every pool state reached from `NewConnectionPool` by `Get` and `Put`
calls, `Get` returns the head of the idle queue and removes it when the queue is
not empty; on an empty queue it returns a newly constructed client when
`maxActive ≥ 1` and the error `connection pool exhausted` when `maxActive ≤ 0`.
Hence `Get` returns an error exactly when `maxActive ≤ 0`, whatever was handed
out before. -/
theorem get_characterisation (maxIdle maxActive : Int) (idleTimeout : Duration)
    (p0 p : ConnectionPool) (ops : List PoolOp)
    (h0 : NewConnectionPool maxIdle maxActive idleTimeout = some p0)
    (hops : p0.calls ops = some p) :
    (∀ conn rest, p.conns.buf = conn :: rest →
        p.Get = ({ p with conns := { p.conns with buf := rest } }, .ok conn)) ∧
      (p.conns.buf = [] → 1 ≤ p.maxActive →
        p.Get = ({ p with created := p.created + 1 },
          .ok { id := p.created, maxIdleConns := p.maxIdle,
                maxIdleConnsPerHost := p.maxIdle, idleConnTimeout := p.idleTimeout,
                timeout := 200 * second })) ∧
      (p.conns.buf = [] → p.maxActive ≤ 0 →
        p.Get = (p, .error "connection pool exhausted")) ∧
      ((∃ err, p.Get.2 = .error err) ↔ p.maxActive ≤ 0) ∧
      p.maxActive = maxActive := by
  obtain ⟨hwf0, hm0, -⟩ := new_wf h0
  obtain ⟨p1, hcalls, hwf, hm⟩ := calls_wf ops hwf0
  rw [hops] at hcalls
  cases hcalls
  have hget_cons : ∀ conn rest, p.conns.buf = conn :: rest →
      p.Get = ({ p with conns := { p.conns with buf := rest } }, .ok conn) := by
    intro conn rest hb
    unfold ConnectionPool.Get
    simp only [hb]
  have hget_new : p.conns.buf = [] → 1 ≤ p.maxActive →
      p.Get = ({ p with created := p.created + 1 },
        .ok { id := p.created, maxIdleConns := p.maxIdle,
              maxIdleConnsPerHost := p.maxIdle, idleConnTimeout := p.idleTimeout,
              timeout := 200 * second }) := by
    intro hb hge
    unfold ConnectionPool.Get
    simp only [hb, List.length_nil, Nat.cast_zero, ge_iff_le]
    rw [if_neg (by omega)]
  have hget_err : p.conns.buf = [] → p.maxActive ≤ 0 →
      p.Get = (p, .error "connection pool exhausted") := by
    intro hb hle
    unfold ConnectionPool.Get
    simp only [hb, List.length_nil, Nat.cast_zero, ge_iff_le]
    rw [if_pos hle]
  refine ⟨hget_cons, hget_new, hget_err, ⟨fun ⟨err, he⟩ => ?_, fun hle => ?_⟩, hm.trans hm0⟩
  · have hpair : p.Get = (p.Get.1, .error err) := by rw [← he]
    exact (get_error hpair).1
  · have hb : p.conns.buf = [] := by
      obtain ⟨h1, h2⟩ := hwf
      have : p.conns.buf.length = 0 := by omega
      exact List.length_eq_zero.mp this
    exact ⟨_, by rw [hget_err hb hle]⟩

/-- The statement of C17 on the pool `NewConnectionPool(10, 1, _)` after two
calls of `Get` and no `Put`: the third `Get` constructs a third client. -/
theorem get_characterisation_witness :
    NewConnectionPool 10 1 (190 * second) = some poolOfOne ∧
      poolOfOne.calls [.get, .get] = some { poolOfOne with created := 2 } ∧
      ({ poolOfOne with created := 2 } : ConnectionPool).Get =
        ({ poolOfOne with created := 3 }, .ok (clientNo 2)) ∧
      ((∃ err, ({ poolOfOne with created := 2 } : ConnectionPool).Get.2 = .error err) ↔
        ({ poolOfOne with created := 2 } : ConnectionPool).maxActive ≤ 0) :=
  ⟨rfl, rfl,
    (get_characterisation 10 1 (190 * second) poolOfOne { poolOfOne with created := 2 }
      [.get, .get] rfl rfl).2.1 rfl (by decide),
    (get_characterisation 10 1 (190 * second) poolOfOne { poolOfOne with created := 2 }
      [.get, .get] rfl rfl).2.2.2.1⟩

/-! ## Start-up -/

theorem splitChars_length (sep : Char) (l : List Char) : ∀ cur : List Char,
    (splitChars sep cur l).length = l.count sep + 1 := by
  induction l with
  | nil => intro cur; rfl
  | cons c cs ih =>
    intro cur
    unfold splitChars
    by_cases h : c = sep
    · rw [if_pos h, List.length_cons, ih, h, List.count_cons_self]
    · rw [if_neg h, ih, List.count_cons_of_ne (fun e => h e.symm)]

theorem stringsSplit_length (s : String) (sep : Char) :
    (stringsSplit s sep).length = s.data.count sep + 1 := by
  unfold stringsSplit
  rw [List.length_map, splitChars_length]

theorem init_nonempty (s : String) (hs : s ≠ "") :
    init (some s) =
      .ok { apiKeys := stringsSplit s ',', currentAPIKey := 0, connPool := startPool } := by
  have hlen : (stringsSplit s ',').length ≠ 0 := by
    rw [stringsSplit_length]
    omega
  have hpool : NewConnectionPool 10 50 (190 * second) = some startPool := rfl
  unfold init Getenv
  simp only [Option.getD_some, if_neg hs, if_neg hlen, hpool]

/-- C14: `init` ends the process with a fatal log exactly when `API_KEYS` is
unset or is the empty string.  For every other value the credential list is the
split of the value at its commas, its length is the number of commas plus one,
hence at least 1, the cursor is 0, and the globals are ready for the handler. -/
theorem init_accepts_nonempty :
    (∀ v : Option String, (∃ msg, init v = .error msg) ↔ (v = none ∨ v = some "")) ∧
      ∀ s : String, s ≠ "" →
        ∃ g, init (some s) = .ok g ∧ g.apiKeys = stringsSplit s ',' ∧
          g.apiKeys.length = s.data.count ',' + 1 ∧ 1 ≤ g.apiKeys.length ∧
          g.currentAPIKey = 0 ∧ g.connPool = startPool ∧ g.Ready := by
  constructor
  · intro v
    constructor
    · rintro ⟨msg, hmsg⟩
      cases v with
      | none => exact Or.inl rfl
      | some s =>
        by_cases hs : s = ""
        · exact Or.inr (by rw [hs])
        · rw [init_nonempty s hs] at hmsg
          cases hmsg
    · rintro (h | h)
      · subst h
        exact ⟨_, rfl⟩
      · subst h
        exact ⟨_, rfl⟩
  · intro s hs
    have hlen := stringsSplit_length s ','
    refine ⟨_, init_nonempty s hs, rfl, hlen, by simp only; omega, rfl, rfl, ?_, ?_⟩
    · simp only
      omega
    · exact (by decide : startPool.WF)

/-- The function `init` on `API_KEYS=A,B,C`, on the empty value and on no value. -/
theorem init_examples :
    init (some "A,B,C") = .ok (keysABC 0) ∧
      init (some "") = .error "API_KEYS environment variable not set" ∧
      init none = .error "API_KEYS environment variable not set" ∧
      (init (some ",")).toOption.map (fun g => g.apiKeys) = some ["", ""] :=
  ⟨rfl, rfl, rfl, by decide⟩

/-! ## The cursor stays in range -/

theorem ready_of_runSpec {env : Env} {g : Globals} {w : ResponseWriter} {r : InRequest}
    {R : Run} (hg : g.Ready) (hR : RunSpec env g w r R) :
    R.g.Ready ∧ R.g.apiKeys = g.apiKeys := by
  have hN : 0 < g.apiKeys.length := by
    have := hg.1
    omega
  refine ⟨⟨?_, hR.pool_wf⟩, hR.keys_eq⟩
  rw [hR.cursor_eq, hR.keys_eq]
  exact Nat.mod_lt _ hN

theorem ready_step {g : Globals} (hg : g.Ready) (e : Event) :
    ∃ g1, g.step e = some g1 ∧ g1.Ready ∧ g1.apiKeys = g.apiKeys := by
  have hN : 0 < g.apiKeys.length := by
    have := hg.1
    omega
  cases e with
  | rotate =>
    refine ⟨_, rotate_some g hN, ⟨?_, hg.2⟩, rfl⟩
    exact Nat.mod_lt _ hN
  | request env w r =>
    obtain ⟨R, hrun, hR⟩ := run_spec env g w r hg.2 (Or.inl hg.1)
    obtain ⟨h1, h2⟩ := ready_of_runSpec hg hR
    refine ⟨R.g, ?_, h1, h2⟩
    simp only [Globals.step, hrun, Option.map_some']

theorem ready_after (es : List Event) : ∀ {g : Globals}, g.Ready →
    ∃ g1, g.after es = some g1 ∧ g1.Ready ∧ g1.apiKeys = g.apiKeys := by
  induction es with
  | nil => exact fun hg => ⟨_, rfl, hg, rfl⟩
  | cons e es ih =>
    intro g hg
    obtain ⟨g1, h1, hr1, hk1⟩ := ready_step hg e
    obtain ⟨g2, h2, hr2, hk2⟩ := ih hr1
    refine ⟨g2, ?_, hr2, hk2.trans hk1⟩
    rw [Globals.after, h1, Option.some_bind, h2]

/-- C11: on a non-empty credential list, from the cursor 0 and the pool of
start-up, every finite sequence of `rotateAPIKey` calls and `proxyHandler` runs
returns (no lookup `apiKeys[currentAPIKey]` panics) and leaves the credential
list as it was and the cursor below its length, so the next lookup and the next
run of the handler succeed as well. -/
theorem cursor_in_range (keys : List String) (pool : ConnectionPool)
    (es : List Event) (hkeys : keys ≠ []) (hpool : pool.WF) :
    ∃ g, Globals.after { apiKeys := keys, currentAPIKey := 0, connPool := pool } es =
        some g ∧
      g.apiKeys = keys ∧ g.currentAPIKey < g.apiKeys.length ∧
      (∃ apiKey, g.apiKeys[g.currentAPIKey]? = some apiKey) ∧
      ∀ env w r, ∃ R, proxyHandler env g w r = some R := by
  have h0 : ({ apiKeys := keys, currentAPIKey := 0, connPool := pool } : Globals).Ready :=
    ⟨List.length_pos.mpr hkeys, hpool⟩
  obtain ⟨g, hafter, hready, hk⟩ := ready_after es h0
  refine ⟨g, hafter, hk, hready.1, ⟨_, List.getElem?_eq_getElem hready.1⟩, fun env w r => ?_⟩
  obtain ⟨R, hrun, -⟩ := run_spec env g w r hready.2 (Or.inl hready.1)
  exact ⟨R, hrun⟩

/-- The statement of C11 on the list `A, B, C`: a rotation, a run that meets
429 three times, a run that is answered 200 on its second attempt, and two more
rotations leave the cursor at 1. -/
theorem cursor_in_range_witness :
    (Globals.after (keysABC 0)
        [.rotate, .request (scripted [] (.ok tooMany)) ResponseWriter.fresh sampleRequest,
          .request (scripted [.ok tooMany]
            (.ok { statusCode := 200, body := "ok", readErr := none }))
            ResponseWriter.fresh sampleRequest,
          .rotate, .rotate]).map (fun g => g.currentAPIKey) = some 1 ∧
      ∃ g, Globals.after (keysABC 0)
          [.rotate, .request (scripted [] (.ok tooMany)) ResponseWriter.fresh sampleRequest,
            .request (scripted [.ok tooMany]
              (.ok { statusCode := 200, body := "ok", readErr := none }))
              ResponseWriter.fresh sampleRequest,
            .rotate, .rotate] = some g ∧
        g.apiKeys = ["A", "B", "C"] ∧ g.currentAPIKey < g.apiKeys.length ∧
        (∃ apiKey, g.apiKeys[g.currentAPIKey]? = some apiKey) ∧
        ∀ env w r, ∃ R, proxyHandler env g w r = some R :=
  ⟨by decide, cursor_in_range ["A", "B", "C"] startPool _ (by decide) (by decide)⟩

/-! ## The outbound requests of a run -/

theorem lookup_filter_ne (h : Header) (k k1 : String) (hk : k ≠ k1) :
    List.lookup k (h.filter (fun e => e.1 != k1)) = List.lookup k h := by
  induction h with
  | nil => rfl
  | cons e rest ih =>
    obtain ⟨key, vals⟩ := e
    by_cases he : key = k1
    · subst he
      have hne : (k == key) = false := by simpa using hk
      simp only [List.filter_cons, bne_self_eq_false, Bool.false_eq_true, if_false,
        List.lookup_cons, hne, ih]
    · have hb : (key != k1) = true := by simpa using he
      simp only [List.filter_cons, hb, if_true, List.lookup_cons, ih]

theorem values_set_self (h : Header) (v : String) :
    (h.Set "x-api-key" v).values "X-Api-Key" = [v] := by
  have hc : canonicalMIMEHeaderKey "x-api-key" = "X-Api-Key" := by decide
  simp [Header.values, Header.Set, hc, List.lookup_cons]

theorem values_set_other (h : Header) (v k : String) (hk : k ≠ "X-Api-Key") :
    (h.Set "x-api-key" v).values k = h.values k := by
  have hc : canonicalMIMEHeaderKey "x-api-key" = "X-Api-Key" := by decide
  have hne : (k == "X-Api-Key") = false := by simpa using hk
  simp only [Header.values, Header.Set, hc, List.lookup_cons, hne]
  rw [lookup_filter_ne h k "X-Api-Key" hk]

/-- C13: every attempt of a run hands `connPool.Do` a request with the inbound
method, the URL `https://api.anthropic.com` followed by the inbound path, the
inbound body handle, and the inbound headers except that `X-Api-Key` (the
canonical form of `x-api-key`) holds the single value `apiKeys[cursor]`, the
credential read at the top of that attempt, whatever the caller sent there. -/
theorem outbound_request_shape (env : Env) (g : Globals) (w : ResponseWriter)
    (r : InRequest) (hg : g.Ready) :
    ∃ R, proxyHandler env g w r = some R ∧
      ∀ (i : Nat) (a : Attempt), R.attempts[i]? = some a →
        a.req.method = r.method ∧
        a.req.url = "https://api.anthropic.com" ++ r.path ∧
        a.req.body = r.body ∧
        g.apiKeys[a.cursor]? = some a.apiKey ∧
        canonicalMIMEHeaderKey "x-api-key" = "X-Api-Key" ∧
        a.req.header.values "X-Api-Key" = [a.apiKey] ∧
        ∀ k, k ≠ "X-Api-Key" → a.req.header.values k = r.header.values k := by
  obtain ⟨R, hrun, hR⟩ := run_spec env g w r hg.2 (Or.inl hg.1)
  refine ⟨R, hrun, fun i a ha => ?_⟩
  have hsp := hR.records i a ha
  rw [hsp.req_eq]
  exact ⟨rfl, rfl, rfl, hsp.key_eq, by decide, values_set_self _ _,
    fun k hk => values_set_other _ _ k hk⟩

/-- The statement of C13 on a request that carries its own `X-Api-Key`: the two
attempts of the run carry `A` and then `B` in its place and keep the content
type. -/
theorem outbound_request_shape_witness :
    (keysABC 0).Ready ∧
      (proxyHandler
        (scripted [.ok tooMany] (.ok { statusCode := 200, body := "ok", readErr := none }))
        (keysABC 0) ResponseWriter.fresh sampleRequest).map
        (fun R => R.attempts.map (fun a => (a.req.method, a.req.url,
          a.req.header.values "X-Api-Key", a.req.header.values "Content-Type"))) =
        some [("POST", "https://api.anthropic.com/v1/messages", ["A"], ["application/json"]),
          ("POST", "https://api.anthropic.com/v1/messages", ["B"], ["application/json"])] ∧
      ∃ R, proxyHandler
          (scripted [.ok tooMany] (.ok { statusCode := 200, body := "ok", readErr := none }))
          (keysABC 0) ResponseWriter.fresh sampleRequest = some R ∧
        ∀ (i : Nat) (a : Attempt), R.attempts[i]? = some a →
          a.req.method = sampleRequest.method ∧
          a.req.url = "https://api.anthropic.com" ++ sampleRequest.path ∧
          a.req.body = sampleRequest.body ∧
          (keysABC 0).apiKeys[a.cursor]? = some a.apiKey ∧
          canonicalMIMEHeaderKey "x-api-key" = "X-Api-Key" ∧
          a.req.header.values "X-Api-Key" = [a.apiKey] ∧
          ∀ k, k ≠ "X-Api-Key" → a.req.header.values k = sampleRequest.header.values k :=
  ⟨by decide, by decide,
    outbound_request_shape _ (keysABC 0) _ sampleRequest (by decide)⟩

theorem cursors_eq_rotate {env : Env} {g : Globals} {w : ResponseWriter} {r : InRequest}
    {R : Run} (hR : RunSpec env g w r R) (hlen : R.attempts.length = g.apiKeys.length) :
    R.attempts.map (fun a => a.cursor) =
      (List.range g.apiKeys.length).rotate g.currentAPIKey := by
  apply List.ext_getElem?
  intro i
  rcases Nat.lt_or_ge i g.apiKeys.length with hi | hi
  · rw [List.getElem?_rotate (by simpa using hi), List.getElem?_map, List.length_range,
      List.getElem?_range (Nat.mod_lt _ (by omega))]
    obtain ⟨a, ha⟩ : ∃ a, R.attempts[i]? = some a :=
      ⟨_, List.getElem?_eq_getElem (by omega)⟩
    rw [ha, Option.map_some', (hR.records i a ha).cursor_eq, Nat.add_comm]
  · rw [List.getElem?_eq_none (by simpa [hlen] using hi),
      List.getElem?_eq_none (by simpa using hi)]

/-- C16: in one run from the cursor `k` over `N` credentials, attempt number `i`
(from 0) reads the cursor `(k + i) mod N` and carries the credential
`apiKeys[(k + i) mod N]` in its `X-Api-Key` header, so every retry uses the
next credential in circular order; and in a run of `N` attempts (all of them
answered 429) every position of the credential list is tried exactly once. -/
theorem attempts_use_successive_keys (env : Env) (g : Globals) (w : ResponseWriter)
    (r : InRequest) (hg : g.Ready) :
    ∃ R, proxyHandler env g w r = some R ∧
      (∀ (i : Nat) (a : Attempt), R.attempts[i]? = some a →
        a.cursor = (g.currentAPIKey + i) % g.apiKeys.length ∧
        g.apiKeys[(g.currentAPIKey + i) % g.apiKeys.length]? = some a.apiKey ∧
        a.req.header.values "X-Api-Key" = [a.apiKey] ∧
        (i + 1 < R.attempts.length → a.rateLimited = true)) ∧
      (R.attempts.length = g.apiKeys.length →
        (∀ a ∈ R.attempts, a.rateLimited = true) →
        ∀ pos, pos < g.apiKeys.length →
          (R.attempts.map (fun a => a.cursor)).count pos = 1) := by
  obtain ⟨R, hrun, hR⟩ := run_spec env g w r hg.2 (Or.inl hg.1)
  refine ⟨R, hrun, fun i a ha => ?_, fun hlen _ pos hpos => ?_⟩
  · have hsp := hR.records i a ha
    refine ⟨hsp.cursor_eq, ?_, ?_, hR.earlier i a ha⟩
    · rw [← hsp.cursor_eq]
      exact hsp.key_eq
    · rw [hsp.req_eq]
      exact values_set_self _ _
  · rw [cursors_eq_rotate hR hlen, (List.rotate_perm _ _).count_eq]
    exact List.count_eq_one_of_mem (List.nodup_range _) (List.mem_range.mpr hpos)

/-- The statement of C16 on the list `A, B, C` from the cursor 1, with every
attempt answered 429: the attempts carry `B`, `C`, `A`. -/
theorem attempts_use_successive_keys_witness :
    (keysABC 1).Ready ∧
      (proxyHandler (scripted [] (.ok tooMany)) (keysABC 1) ResponseWriter.fresh
        sampleRequest).map
        (fun R => R.attempts.map (fun a => (a.cursor, a.apiKey, a.rateLimited))) =
        some [(1, "B", true), (2, "C", true), (0, "A", true)] ∧
      ∃ R, proxyHandler (scripted [] (.ok tooMany)) (keysABC 1) ResponseWriter.fresh
          sampleRequest = some R ∧
        (∀ (i : Nat) (a : Attempt), R.attempts[i]? = some a →
          a.cursor = ((keysABC 1).currentAPIKey + i) % (keysABC 1).apiKeys.length ∧
          (keysABC 1).apiKeys[((keysABC 1).currentAPIKey + i) %
            (keysABC 1).apiKeys.length]? = some a.apiKey ∧
          a.req.header.values "X-Api-Key" = [a.apiKey] ∧
          (i + 1 < R.attempts.length → a.rateLimited = true)) ∧
        (R.attempts.length = (keysABC 1).apiKeys.length →
          (∀ a ∈ R.attempts, a.rateLimited = true) →
          ∀ pos, pos < (keysABC 1).apiKeys.length →
            (R.attempts.map (fun a => a.cursor)).count pos = 1) :=
  ⟨by decide, by decide,
    attempts_use_successive_keys _ (keysABC 1) _ sampleRequest (by decide)⟩

end ClaudeProxy
